import Mathlib

/-!
Shallow embedding of the `tasty-entree` fixed-arity tree container
(src/macros.rs, src/ntree_node.rs, src/ntree.rs).

Modelling conventions:
* A Rust `NtreeNode<N, T>` (one payload, an array of `N` optional boxed
  children) becomes the nested inductive `NtreeNode T` whose child list is
  a `List (Option (NtreeNode T))`; the const generic `N` is passed to the
  operations that mention it.  A node produced by the library always has
  `children.length = N`; theorems carry that as a hypothesis where needed.
* A Rust panic (out-of-bounds index into `self.children`, or `unwrap` of
  `None`) is modelled as the outer `none` of an `Option` result; a normal
  return is `some`.  A mutating method returns the updated node paired
  with its Rust return value.
-/

namespace Tasty

/-- Embeds `NtreeNode<N, T>` from src/ntree_node.rs: one payload `data`
and the child array `children` (`[Option<Box<NtreeNode<N, T>>>; N]`). -/
inductive NtreeNode (T : Type) : Type where
  | mk (data : T) (children : List (Option (NtreeNode T))) : NtreeNode T

/-- The node's payload (`self.data`). -/
def NtreeNode.data {T : Type} : NtreeNode T → T
  | .mk d _ => d

/-- The node's child array (`self.children`). -/
def NtreeNode.children {T : Type} : NtreeNode T → List (Option (NtreeNode T))
  | .mk _ c => c

@[simp] theorem NtreeNode.data_mk {T : Type} (d : T)
    (c : List (Option (NtreeNode T))) : (NtreeNode.mk d c).data = d := rfl

@[simp] theorem NtreeNode.children_mk {T : Type} (d : T)
    (c : List (Option (NtreeNode T))) :
    (NtreeNode.mk d c).children = c := rfl

/-- Embeds the `none_array!(N, type)` macro from src/macros.rs: it writes
the empty marker `None` into each of the `N` slots, producing an array of
exactly `N` elements all `None`. -/
def none_array (T : Type) (N : Nat) : List (Option (NtreeNode T)) :=
  List.replicate N none

/-- `NtreeNode::new` from src/ntree_node.rs: payload `data`, children from
`none_array!(N, ...)`. -/
def NtreeNode.new (T : Type) (N : Nat) (data : T) : NtreeNode T :=
  .mk data (none_array T N)

/-- `get_data` from src/ntree_node.rs: returns (a reference to) the node's
payload. -/
def get_data {T : Type} (self : NtreeNode T) : T :=
  self.data

/-- `set_data` from src/ntree_node.rs:
`std::mem::replace(&mut self.data, data)` — returns the updated node and
the previous payload. -/
def set_data {T : Type} (self : NtreeNode T) (data : T) : NtreeNode T × T :=
  (.mk data self.children, self.data)

/-- Unchecked `peek` from src/ntree_node.rs: reads `self.children[i]`,
which panics (outer `none`) when `i` is out of bounds of the child array;
otherwise returns the slot's contents. -/
def peek {T : Type} (self : NtreeNode T) (i : Nat) :
    Option (Option (NtreeNode T)) :=
  self.children[i]?

/-- Unchecked `peek_mut` from src/ntree_node.rs: same access as `peek`,
returning the mutable reference to the slot's child. -/
def peek_mut {T : Type} (self : NtreeNode T) (i : Nat) :
    Option (Option (NtreeNode T)) :=
  self.children[i]?

/-- Unchecked `push_mut` from src/ntree_node.rs:
`self.children[i] = Some(Box::from(Self::new(data)))` (panics when `i` is
out of bounds), then `self.peek_mut(i).unwrap()`.  Returns the updated
node and the child reference the method hands back. -/
def push_mut {T : Type} (N : Nat) (self : NtreeNode T) (i : Nat) (data : T) :
    Option (NtreeNode T × NtreeNode T) :=
  if i < self.children.length then
    let self2 : NtreeNode T :=
      .mk self.data (self.children.set i (some (NtreeNode.new T N data)))
    match peek_mut self2 i with
    | some (some child) => some (self2, child)
    | _ => none
  else none

/-- Unchecked `push` from src/ntree_node.rs: delegates to `push_mut`. -/
def push {T : Type} (N : Nat) (self : NtreeNode T) (i : Nat) (data : T) :
    Option (NtreeNode T × NtreeNode T) :=
  push_mut N self i data

/-- Unchecked `pop` from src/ntree_node.rs: `self.children[i].take()`
(panics when `i` is out of bounds); on `Some(node)` returns
`node.take_data()` — only the detached child's own payload, its subtree
being dropped.  Returns the updated node and the `Option<T>` result. -/
def pop {T : Type} (self : NtreeNode T) (i : Nat) :
    Option (NtreeNode T × Option T) :=
  match self.children[i]? with
  | none => none
  | some slot =>
      some (.mk self.data (self.children.set i none),
            slot.map NtreeNode.data)

/-- Unchecked `peek_or_push_mut` from src/ntree_node.rs:
`if self.peek(i).is_none() { self.push_mut(i, default_data); }` then
`self.peek_mut(i).unwrap()`.  Returns the updated node and the child
reference handed back. -/
def peek_or_push_mut {T : Type} (N : Nat) (self : NtreeNode T) (i : Nat)
    (default_data : T) : Option (NtreeNode T × NtreeNode T) :=
  match peek self i with
  | none => none
  | some slot =>
      let step : Option (NtreeNode T) :=
        match slot with
        | some _ => some self
        | none => (push_mut N self i default_data).map Prod.fst
      match step with
      | none => none
      | some self2 =>
          match peek_mut self2 i with
          | some (some child) => some (self2, child)
          | _ => none

/-- Unchecked `peek_or_push` from src/ntree_node.rs: delegates to
`peek_or_push_mut`. -/
def peek_or_push {T : Type} (N : Nat) (self : NtreeNode T) (i : Nat)
    (default_data : T) : Option (NtreeNode T × NtreeNode T) :=
  peek_or_push_mut N self i default_data

/-- `bounded_peek` from src/ntree_node.rs: `if i > N { return None }` then
the unchecked `peek`. -/
def bounded_peek {T : Type} (N : Nat) (self : NtreeNode T) (i : Nat) :
    Option (Option (NtreeNode T)) :=
  if i > N then some none else peek self i

/-- `bounded_peek_mut` from src/ntree_node.rs: `if i > N { return None }`
then the unchecked `peek_mut`. -/
def bounded_peek_mut {T : Type} (N : Nat) (self : NtreeNode T) (i : Nat) :
    Option (Option (NtreeNode T)) :=
  if i > N then some none else peek_mut self i

/-- `bounded_push_mut` from src/ntree_node.rs: `if i > N { return None }`
then `Some(push_mut(i, data))`.  Result: updated node and the
`Option<&mut dyn ...>` value (inner `none` = the Rust `None`). -/
def bounded_push_mut {T : Type} (N : Nat) (self : NtreeNode T) (i : Nat)
    (data : T) : Option (NtreeNode T × Option (NtreeNode T)) :=
  if i > N then some (self, none)
  else (push_mut N self i data).map (fun p => (p.1, some p.2))

/-- `bounded_push` from src/ntree_node.rs: `if i > N { return None }` then
`Some(push(i, data))`. -/
def bounded_push {T : Type} (N : Nat) (self : NtreeNode T) (i : Nat)
    (data : T) : Option (NtreeNode T × Option (NtreeNode T)) :=
  if i > N then some (self, none)
  else (push N self i data).map (fun p => (p.1, some p.2))

/-- `bounded_peek_or_push_mut` from src/ntree_node.rs:
`if i > N { return None }` then `Some(peek_or_push_mut(i, default_data))`. -/
def bounded_peek_or_push_mut {T : Type} (N : Nat) (self : NtreeNode T)
    (i : Nat) (default_data : T) :
    Option (NtreeNode T × Option (NtreeNode T)) :=
  if i > N then some (self, none)
  else (peek_or_push_mut N self i default_data).map (fun p => (p.1, some p.2))

/-- `bounded_peek_or_push` from src/ntree_node.rs:
`if i > N { return None }` then `Some(peek_or_push(i, default_data))`. -/
def bounded_peek_or_push {T : Type} (N : Nat) (self : NtreeNode T)
    (i : Nat) (default_data : T) :
    Option (NtreeNode T × Option (NtreeNode T)) :=
  if i > N then some (self, none)
  else (peek_or_push N self i default_data).map (fun p => (p.1, some p.2))

/-- `bounded_pop` from src/ntree_node.rs: `if i > N { return None }` then
the unchecked `pop`. -/
def bounded_pop {T : Type} (N : Nat) (self : NtreeNode T) (i : Nat) :
    Option (NtreeNode T × Option T) :=
  if i > N then some (self, none) else pop self i

/-- Embeds `Ntree<N, T>` from src/ntree.rs: a thin wrapper owning the
root node. -/
structure Ntree (T : Type) : Type where
  root : NtreeNode T

/-- `Ntree::new` from src/ntree.rs: root = `NtreeNode::new(default_data)`. -/
def Ntree.new (T : Type) (N : Nat) (default_data : T) : Ntree T :=
  ⟨NtreeNode.new T N default_data⟩

/-! ## Helper lemmas -/

theorem list_set_eq_self {α : Type _} (l : List α) (i : Nat) (a : α)
    (h : l[i]? = some a) : l.set i a = l := by
  have hlt : i < l.length := by
    by_contra hge
    rw [List.getElem?_eq_none (by omega)] at h
    exact Option.noConfusion h
  apply List.ext_getElem?
  intro j
  by_cases hj : j = i
  · subst hj
    rw [List.getElem?_set_self hlt]
    exact h.symm
  · rw [List.getElem?_set_ne (fun he => hj he.symm)]

/-! ## Claims -/

/-- Claim C1 evaluation at the failing input: the claim says every
bounds-checked operation returns the empty/failure result for all
`i ≥ N`, but the check in the code is `if i > N`, so `i = N` slips
through and the unchecked operation indexes `children[N]`, which panics
(modelled as the outer `none`).  Here `N = 1`, `i = 1`: all seven
bounds-checked operations panic instead of returning `None`. -/
theorem C1_bounded_family_panics_at_index_N :
    bounded_peek 1 (NtreeNode.new Nat 1 0) 1 = none ∧
    bounded_peek_mut 1 (NtreeNode.new Nat 1 0) 1 = none ∧
    bounded_push 1 (NtreeNode.new Nat 1 0) 1 5 = none ∧
    bounded_push_mut 1 (NtreeNode.new Nat 1 0) 1 5 = none ∧
    bounded_peek_or_push 1 (NtreeNode.new Nat 1 0) 1 5 = none ∧
    bounded_peek_or_push_mut 1 (NtreeNode.new Nat 1 0) 1 5 = none ∧
    bounded_pop 1 (NtreeNode.new Nat 1 0) 1 = none :=
  ⟨rfl, rfl, rfl, rfl, rfl, rfl, rfl⟩

/-- Claim C2 evaluation: for arity `N = 0` construction does succeed
(root holds the payload and an empty child array), but the claim that
every bounds-checked child operation returns `None` for every `i` fails
at `i = 0`: the check `i > N` lets `0` through and the unchecked
operation indexes the empty array, panicking (outer `none`).  The last
conjunct shows `i = 1` does return `None` as claimed. -/
theorem C2_arity_zero_bounded_ops_panic_at_zero :
    (Ntree.new Nat 0 7).root = NtreeNode.mk 7 [] ∧
    bounded_peek 0 (NtreeNode.new Nat 0 7) 0 = none ∧
    bounded_peek_mut 0 (NtreeNode.new Nat 0 7) 0 = none ∧
    bounded_push 0 (NtreeNode.new Nat 0 7) 0 5 = none ∧
    bounded_push_mut 0 (NtreeNode.new Nat 0 7) 0 5 = none ∧
    bounded_peek_or_push 0 (NtreeNode.new Nat 0 7) 0 5 = none ∧
    bounded_peek_or_push_mut 0 (NtreeNode.new Nat 0 7) 0 5 = none ∧
    bounded_pop 0 (NtreeNode.new Nat 0 7) 0 = none ∧
    bounded_pop 0 (NtreeNode.new Nat 0 7) 1 =
      some (NtreeNode.new Nat 0 7, none) :=
  ⟨rfl, rfl, rfl, rfl, rfl, rfl, rfl, rfl, rfl⟩

/-- Claim C3: for every arity `N`, index `i < N`, payload `d` and node
state, `push(i, d)` (also through `bounded_push` / `bounded_push_mut`)
followed by `peek(i)` yields an occupied slot whose node's payload
(`get_data`) equals `d`. -/
theorem C3_push_then_peek (T : Type) (N : Nat) (self : NtreeNode T)
    (i : Nat) (d : T) (hwf : self.children.length = N) (hi : i < N) :
    ∃ self2 child,
      push_mut N self i d = some (self2, child) ∧
      bounded_push N self i d = some (self2, some child) ∧
      bounded_push_mut N self i d = some (self2, some child) ∧
      peek self2 i = some (some child) ∧
      get_data child = d := by
  obtain ⟨d0, c⟩ := self
  have hlen : i < c.length := by simp at hwf; omega
  have hpush : push_mut N (NtreeNode.mk d0 c) i d =
      some (NtreeNode.mk d0 (c.set i (some (NtreeNode.new T N d))),
            NtreeNode.new T N d) := by
    simp [push_mut, hlen, peek_mut, List.getElem?_set_self hlen]
  refine ⟨NtreeNode.mk d0 (c.set i (some (NtreeNode.new T N d))),
    NtreeNode.new T N d, hpush, ?_, ?_, ?_, rfl⟩
  · simp [bounded_push, Nat.not_lt.mpr (Nat.le_of_lt hi), push, hpush]
  · simp [bounded_push_mut, Nat.not_lt.mpr (Nat.le_of_lt hi), hpush]
  · simp [peek, List.getElem?_set_self hlen]

/-- Claim C3 witness at `N = 2`, `i = 0`, `d = 5`. -/
theorem C3_witness :
    ∃ self2 child,
      push_mut 2 (NtreeNode.new Nat 2 9) 0 5 = some (self2, child) ∧
      bounded_push 2 (NtreeNode.new Nat 2 9) 0 5 =
        some (self2, some child) ∧
      bounded_push_mut 2 (NtreeNode.new Nat 2 9) 0 5 =
        some (self2, some child) ∧
      peek self2 0 = some (some child) ∧
      get_data child = 5 :=
  C3_push_then_peek Nat 2 (NtreeNode.new Nat 2 9) 0 5 rfl (by decide)

/-- Claim C4: after `push(i, d)`, `pop(i)` returns `Some d` and a
subsequent `peek(i)` is empty; in general `pop(i)` on an occupied slot
returns exactly the payload at the root of the detached subtree
(`some (get_data c)`), discarding every deeper payload. -/
theorem C4_pop_peels_root_payload (T : Type) (N : Nat)
    (self : NtreeNode T) (i : Nat) (d : T)
    (hwf : self.children.length = N) (hi : i < N) :
    (∃ self2 child self3,
        push_mut N self i d = some (self2, child) ∧
        pop self2 i = some (self3, some d) ∧
        peek self3 i = some none) ∧
    (∀ c, peek self i = some (some c) →
        pop self i =
          some (NtreeNode.mk self.data (self.children.set i none),
                some (get_data c))) := by
  obtain ⟨d0, c⟩ := self
  have hlen : i < c.length := by simp at hwf; omega
  constructor
  · have hpush : push_mut N (NtreeNode.mk d0 c) i d =
        some (NtreeNode.mk d0 (c.set i (some (NtreeNode.new T N d))),
              NtreeNode.new T N d) := by
      simp [push_mut, hlen, peek_mut, List.getElem?_set_self hlen]
    refine ⟨NtreeNode.mk d0 (c.set i (some (NtreeNode.new T N d))),
      NtreeNode.new T N d,
      NtreeNode.mk d0 ((c.set i (some (NtreeNode.new T N d))).set i none),
      hpush, ?_, ?_⟩
    · simp [pop, List.getElem?_set_self hlen, NtreeNode.new, NtreeNode.data]
    · simp [peek, List.set_set, List.getElem?_set_self hlen]
  · intro cc hocc
    simp only [peek, NtreeNode.children_mk] at hocc
    simp [pop, hocc, get_data]

/-- Claim C4 witness: a two-level subtree at slot 0; popping returns the
direct child's payload 5 and discards the grandchild's payload 3. -/
theorem C4_witness :
    (∃ self2 child self3,
        push_mut 1 (NtreeNode.mk 9 [some (NtreeNode.mk 5
          [some (NtreeNode.mk 3 [none])])]) 0 7 = some (self2, child) ∧
        pop self2 0 = some (self3, some 7) ∧
        peek self3 0 = some none) ∧
    pop (NtreeNode.mk 9 [some (NtreeNode.mk 5
        [some (NtreeNode.mk 3 [none])])]) 0 =
      some (NtreeNode.mk 9 [none], some 5) := by
  have h := C4_pop_peels_root_payload Nat 1
    (NtreeNode.mk 9 [some (NtreeNode.mk 5 [some (NtreeNode.mk 3 [none])])])
    0 7 rfl (by decide)
  exact ⟨h.1, h.2 (NtreeNode.mk 5 [some (NtreeNode.mk 3 [none])]) rfl⟩

/-- Claim C5: `peek_or_push(i, d)` on an empty slot creates a child
holding `d` and returns it; a second `peek_or_push(i, d2)` returns the
same existing child still holding `d` and leaves the node unchanged. -/
theorem C5_peek_or_push_preserves_existing (T : Type) (N : Nat)
    (self : NtreeNode T) (i : Nat) (d d2 : T)
    (hwf : self.children.length = N) (hi : i < N)
    (hempty : peek self i = some none) :
    ∃ self2 child,
      peek_or_push_mut N self i d = some (self2, child) ∧
      get_data child = d ∧
      peek self2 i = some (some child) ∧
      peek_or_push_mut N self2 i d2 = some (self2, child) ∧
      peek_or_push N self2 i d2 = some (self2, child) := by
  obtain ⟨d0, c⟩ := self
  have hlen : i < c.length := by simp at hwf; omega
  simp only [peek, NtreeNode.children_mk] at hempty
  have hpeek2 : (c.set i (some (NtreeNode.new T N d)))[i]? =
      some (some (NtreeNode.new T N d)) := List.getElem?_set_self hlen
  refine ⟨NtreeNode.mk d0 (c.set i (some (NtreeNode.new T N d))),
    NtreeNode.new T N d, ?_, rfl, ?_, ?_, ?_⟩
  · simp [peek_or_push_mut, peek, hempty, push_mut, hlen, peek_mut, hpeek2]
  · simp [peek, hpeek2]
  · simp [peek_or_push_mut, peek, peek_mut, hpeek2]
  · simp [peek_or_push, peek_or_push_mut, peek, peek_mut, hpeek2]

/-- Claim C5 witness at `N = 2`, `i = 1`, first payload 5, second 8. -/
theorem C5_witness :
    ∃ self2 child,
      peek_or_push_mut 2 (NtreeNode.new Nat 2 9) 1 5 =
        some (self2, child) ∧
      get_data child = 5 ∧
      peek self2 1 = some (some child) ∧
      peek_or_push_mut 2 self2 1 8 = some (self2, child) ∧
      peek_or_push 2 self2 1 8 = some (self2, child) :=
  C5_peek_or_push_preserves_existing Nat 2 (NtreeNode.new Nat 2 9) 1 5 8
    rfl (by decide) rfl

/-- Claim C6: `push(i, d1)` then `push(i, d2)` leaves slot `i` holding a
fresh child with payload `d2` and all child slots empty; the final state
equals pushing `d2` directly on the original node, so nothing of the
first push's subtree remains reachable. -/
theorem C6_push_overwrites (T : Type) (N : Nat) (self : NtreeNode T)
    (i : Nat) (d1 d2 : T) (hwf : self.children.length = N) (hi : i < N) :
    ∃ self1 c1 self2 c2,
      push_mut N self i d1 = some (self1, c1) ∧
      push_mut N self1 i d2 = some (self2, c2) ∧
      get_data c2 = d2 ∧
      NtreeNode.children c2 = List.replicate N none ∧
      peek self2 i = some (some c2) ∧
      push_mut N self i d2 = some (self2, c2) := by
  obtain ⟨d0, c⟩ := self
  have hlen : i < c.length := by simp at hwf; omega
  have hlen1 : i < (c.set i (some (NtreeNode.new T N d1))).length := by
    simpa using hlen
  have hset : (c.set i (some (NtreeNode.new T N d1))).set i
      (some (NtreeNode.new T N d2)) = c.set i (some (NtreeNode.new T N d2)) :=
    List.set_set ..
  refine ⟨NtreeNode.mk d0 (c.set i (some (NtreeNode.new T N d1))),
    NtreeNode.new T N d1,
    NtreeNode.mk d0 (c.set i (some (NtreeNode.new T N d2))),
    NtreeNode.new T N d2, ?_, ?_, rfl, rfl, ?_, ?_⟩
  · simp [push_mut, hlen, peek_mut, List.getElem?_set_self hlen]
  · simp [push_mut, hlen1, hlen, peek_mut, hset, List.getElem?_set_self hlen]
  · simp [peek, List.getElem?_set_self hlen]
  · simp [push_mut, hlen, peek_mut, List.getElem?_set_self hlen]

/-- Claim C6 witness at `N = 2`, `i = 1`, payloads 4 then 6. -/
theorem C6_witness :
    ∃ self1 c1 self2 c2,
      push_mut 2 (NtreeNode.new Nat 2 9) 1 4 = some (self1, c1) ∧
      push_mut 2 self1 1 6 = some (self2, c2) ∧
      get_data c2 = 6 ∧
      NtreeNode.children c2 = List.replicate 2 none ∧
      peek self2 1 = some (some c2) ∧
      push_mut 2 (NtreeNode.new Nat 2 9) 1 6 = some (self2, c2) :=
  C6_push_overwrites Nat 2 (NtreeNode.new Nat 2 9) 1 4 6 rfl (by decide)

/-- Claim C7: `set_data(v)` always succeeds, returns the previous payload
by value, installs `v` as the payload, and leaves the child array (hence
every subtree) untouched. -/
theorem C7_set_data_frame (T : Type) (self : NtreeNode T) (v : T) :
    set_data self v = (NtreeNode.mk v self.children, self.data) ∧
    get_data (set_data self v).1 = v ∧
    (set_data self v).1.children = self.children ∧
    (set_data self v).2 = self.data :=
  ⟨rfl, rfl, rfl, rfl⟩

/-- Claim C8: `new(d)` (node and tree) yields payload `d` and a child
array of exactly `N` slots, all empty: `none_array` produces exactly `N`
empty markers. -/
theorem C8_new_all_empty (T : Type) (N : Nat) (d : T) :
    none_array T N = List.replicate N none ∧
    (none_array T N).length = N ∧
    NtreeNode.new T N d = NtreeNode.mk d (List.replicate N none) ∧
    get_data (NtreeNode.new T N d) = d ∧
    (NtreeNode.new T N d).children = List.replicate N none ∧
    (Ntree.new T N d).root = NtreeNode.new T N d :=
  ⟨rfl, by simp [none_array], rfl, rfl, rfl, rfl⟩

/-- Claim C9: every unchecked-family operation at an index `i ≥ N` on a
well-formed node faults (panics, the outer `none`) instead of silently
succeeding or mutating state. -/
theorem C9_unchecked_family_faults (T : Type) (N : Nat)
    (self : NtreeNode T) (i : Nat) (d : T)
    (hwf : self.children.length = N) (hN : N ≤ i) :
    peek self i = none ∧ peek_mut self i = none ∧
    push N self i d = none ∧ push_mut N self i d = none ∧
    peek_or_push N self i d = none ∧ peek_or_push_mut N self i d = none ∧
    pop self i = none := by
  have hnone : self.children[i]? = none :=
    List.getElem?_eq_none (by omega)
  have hnl : ¬ i < self.children.length := by omega
  refine ⟨?_, ?_, ?_, ?_, ?_, ?_, ?_⟩ <;>
    simp [peek, peek_mut, push, push_mut, peek_or_push, peek_or_push_mut,
      pop, hnone, hnl]

/-- Claim C9 witness at `N = 1`, `i = 1` (the boundary index). -/
theorem C9_witness :
    peek (NtreeNode.new Nat 1 0) 1 = none ∧
    peek_mut (NtreeNode.new Nat 1 0) 1 = none ∧
    push 1 (NtreeNode.new Nat 1 0) 1 5 = none ∧
    push_mut 1 (NtreeNode.new Nat 1 0) 1 5 = none ∧
    peek_or_push 1 (NtreeNode.new Nat 1 0) 1 5 = none ∧
    peek_or_push_mut 1 (NtreeNode.new Nat 1 0) 1 5 = none ∧
    pop (NtreeNode.new Nat 1 0) 1 = none :=
  C9_unchecked_family_faults Nat 1 (NtreeNode.new Nat 1 0) 1 5 rfl
    (by decide)

/-- Claim C10: `pop(i)` (and `bounded_pop(i)`) on an in-range empty slot
returns `None` and leaves the node — payload, the empty slot, and every
other slot — exactly unchanged. -/
theorem C10_pop_empty_slot_noop (T : Type) (N : Nat)
    (self : NtreeNode T) (i : Nat)
    (hwf : self.children.length = N) (hi : i < N)
    (hempty : peek self i = some none) :
    pop self i = some (self, none) ∧
    bounded_pop N self i = some (self, none) := by
  obtain ⟨d0, c⟩ := self
  simp only [peek, NtreeNode.children_mk] at hempty
  have hset : c.set i none = c := list_set_eq_self c i none hempty
  have hpop : pop (NtreeNode.mk d0 c) i =
      some (NtreeNode.mk d0 c, none) := by
    simp [pop, hempty, hset]
  exact ⟨hpop, by simp [bounded_pop, Nat.not_lt.mpr (Nat.le_of_lt hi), hpop]⟩

/-- Claim C10 witness at `N = 2`, `i = 0`, with slot 1 occupied. -/
theorem C10_witness :
    pop (NtreeNode.mk 9 [none, some (NtreeNode.mk 3 [none, none])]) 0 =
      some (NtreeNode.mk 9 [none, some (NtreeNode.mk 3 [none, none])],
            none) ∧
    bounded_pop 2 (NtreeNode.mk 9 [none, some (NtreeNode.mk 3
      [none, none])]) 0 =
      some (NtreeNode.mk 9 [none, some (NtreeNode.mk 3 [none, none])],
            none) :=
  C10_pop_empty_slot_noop Nat 2
    (NtreeNode.mk 9 [none, some (NtreeNode.mk 3 [none, none])]) 0 rfl
    (by decide) rfl

end Tasty
